import Mathlib

/-!
Verification of the rxgk/krb5 crypto glue, the NFS path reconstruction
walk and the NFS referral-loop guard, as shallowly embedded from the
repository sources.
-/

namespace Rxgk

/-! ## Segmented buffers and scatter-gather mapping

An sk_buff is abstracted as the list of the sizes of its discontiguous
memory fragments, in order.  `fragsSpanned` counts how many fragments the
byte range `[off, off + len)` touches.
-/

/-- Number of discontiguous fragments of the segmented buffer touched by
the byte range starting at `off` of length `len`. -/
def fragsSpanned : List Nat → Nat → Nat → Nat
  | [], _, _ => 0
  | f :: rest, off, len =>
    if len = 0 then 0
    else if f ≤ off then fragsSpanned rest (off - f) len
    else 1 + fragsSpanned rest 0 (len - min len (f - off))

/-- The scatter-gather array declared by every rxgk glue function holds 16
entries (`struct scatterlist sg[16]`). -/
def SG_MAX : Nat := 16

/-- Modelled from the spec: `skb_to_sgvec` is not under src/ (only its
callers are).  It maps the byte range `[offset, offset + len)` of a
segmented buffer onto the caller's 16-entry scatter-gather array and
returns the number of fragments used; a range needing more fragments than
the array holds is a hard failure reported as a negative error, not a
silent truncation. -/
def skb_to_sgvec (skb : List Nat) (offset len : Nat) : Int :=
  let n := fragsSpanned skb offset len
  if n ≤ SG_MAX then (n : Int) else -90

/-- 16-bit unsigned subtraction: `a - b` as computed on `u16` operands,
wrapping modulo 2^16. -/
def sub16 (a b : Nat) : Nat := (a % 65536 + (65536 - b % 65536)) % 65536

/-! ## The four rxgk glue operations

The underlying krb5 operations (`crypto_krb5_encrypt` and friends) live
outside src/ and are taken as opaque function parameters; the glue code
itself is embedded faithfully from rxgk_common.h.
-/

/-- `rxgk_encrypt_skb`: build the scatterlist for the secure range, fail
if that fails, rebase `data_offset` by `secure_offset` in u16 arithmetic,
and hand off to the crypto layer.  The crypto layer is the opaque
parameter `crypto_krb5_encrypt`, receiving nr_sg, secure_len, the rebased
data offset, data_len and the preconfounded flag. -/
def rxgk_encrypt_skb (crypto_krb5_encrypt : Nat → Nat → Nat → Nat → Bool → Int)
    (skb : List Nat) (secure_offset secure_len data_offset data_len : Nat)
    (preconfounded : Bool) : Int :=
  let nr_sg := skb_to_sgvec skb secure_offset secure_len
  if nr_sg < 0 then nr_sg
  else
    crypto_krb5_encrypt nr_sg.toNat secure_len (sub16 data_offset secure_offset)
      data_len preconfounded

/-- `rxgk_get_mic_skb`: identical control flow to `rxgk_encrypt_skb`,
handing off to the opaque `crypto_krb5_get_mic` with the same u16-rebased
data offset. -/
def rxgk_get_mic_skb (crypto_krb5_get_mic : Nat → Nat → Nat → Nat → Int)
    (skb : List Nat) (secure_offset secure_len data_offset data_len : Nat) : Int :=
  let nr_sg := skb_to_sgvec skb secure_offset secure_len
  if nr_sg < 0 then nr_sg
  else
    crypto_krb5_get_mic nr_sg.toNat secure_len (sub16 data_offset secure_offset)
      data_len

/-- What `rxgk_decrypt_skb` / `rxgk_verify_mic_skb` leave in their in/out
parameters on return: the function result, `*_offset`, `*_len` and
`*_error_code`. -/
structure DecOut where
  ret : Int
  offset : Nat
  len : Nat
  error_code : Int
  deriving Repr, DecidableEq

/-- The result quadruple of the opaque underlying decrypt/verify
operation: (return value, offset delta, reported length, error code left
in the out-parameter). -/
def KrbResult := Int × Nat × Nat × Int

/-- `rxgk_decrypt_skb`: build the scatterlist over `[*_offset, *_offset +
*_len)`; on failure return the error with the out-parameters untouched;
otherwise run the opaque `crypto_krb5_decrypt` (which takes nr_sg, the
length, and the incoming error-code cell, and yields return value, offset
delta, reported length and error code), then add the delta to `*_offset`
and store the reported length in `*_len`. -/
def rxgk_decrypt_skb (crypto_krb5_decrypt : Nat → Nat → Int → KrbResult)
    (skb : List Nat) (offset len : Nat) (error_code : Int) : DecOut :=
  let nr_sg := skb_to_sgvec skb offset len
  if nr_sg < 0 then ⟨nr_sg, offset, len, error_code⟩
  else
    let r := crypto_krb5_decrypt nr_sg.toNat len error_code
    ⟨r.1, offset + r.2.1, r.2.2.1, r.2.2.2⟩

/-- `rxgk_verify_mic_skb`: identical control flow to `rxgk_decrypt_skb`,
handing off to the opaque `crypto_krb5_verify_mic`. -/
def rxgk_verify_mic_skb (crypto_krb5_verify_mic : Nat → Nat → Int → KrbResult)
    (skb : List Nat) (offset len : Nat) (error_code : Int) : DecOut :=
  let nr_sg := skb_to_sgvec skb offset len
  if nr_sg < 0 then ⟨nr_sg, offset, len, error_code⟩
  else
    let r := crypto_krb5_verify_mic nr_sg.toNat len error_code
    ⟨r.1, offset + r.2.1, r.2.2.1, r.2.2.2⟩

/-! ## The krb5 enctype descriptor and the modelled underlying operations -/

/-- The krb5 enctype descriptor, embedded from include/crypto/krb5.h.
The algorithm-name selectors are kept as strings; the profile and
random_to_key capabilities are opaque at this layer and elided. -/
structure Krb5Enctype where
  etype : Int
  ctype : Int
  name : String
  encrypt_name : String
  cksum_name : String
  hash_name : String
  block_len : Nat
  conf_len : Nat
  cksum_len : Nat
  key_bytes : Nat
  key_len : Nat
  hash_len : Nat
  prf_len : Nat
  Kc_len : Nat
  Ke_len : Nat
  Ki_len : Nat
  keyed_cksum : Bool
  pad : Bool
  deriving Repr, DecidableEq

/-- The three disjoint failure classes of a krb5 decrypt/verify
operation, as named by the spec's error taxonomy. -/
inductive KrbFail where
  | badChecksum
  | shortLength
  | primitiveFail (e : Int)
  deriving Repr, DecidableEq

/-- Modelled from the spec: `crypto_krb5_decrypt` is not under src/ (only
its caller is).  Per the spec's decrypt contract it fails with a
malformed-length error when the region is too short to contain confounder
plus checksum, with the primitive's own error when the underlying
cipher/hash rejects the operation, and with an integrity error on
checksum mismatch; on success it reports offset delta conf_len and
length len - conf_len - cksum_len - padLen, excluding confounder,
checksum and padding.  The oracle arguments cksumOk, primErr and padLen
stand for the packet contents and the opaque primitives; the error-code
cell is written to 2 for malformed length and 1 for integrity failure
and otherwise left as handed in. -/
def crypto_krb5_decrypt (krb5 : Krb5Enctype) (cksumOk : Bool)
    (primErr : Option Int) (padLen : Nat)
    (_nr_sg : Nat) (len : Nat) (ec : Int) : KrbResult :=
  if len < krb5.conf_len + krb5.cksum_len then
    (-71, 0, len, 2)
  else
    match primErr with
    | some e => (e, 0, len, ec)
    | none =>
      if cksumOk then
        (0, krb5.conf_len, len - krb5.conf_len - krb5.cksum_len - padLen, ec)
      else
        (-74, 0, len, 1)

/-- Modelled from the spec: `crypto_krb5_verify_mic` is not under src/
(only its caller is).  It mirrors the decrypt error taxonomy; on success
the detached MIC preceding the data is stripped, so the offset delta is
cksum_len and the reported length is len - cksum_len. -/
def crypto_krb5_verify_mic (krb5 : Krb5Enctype) (cksumOk : Bool)
    (primErr : Option Int)
    (_nr_sg : Nat) (len : Nat) (ec : Int) : KrbResult :=
  if len < krb5.cksum_len then
    (-71, 0, len, 2)
  else
    match primErr with
    | some e => (e, 0, len, ec)
    | none =>
      if cksumOk then
        (0, krb5.cksum_len, len - krb5.cksum_len, ec)
      else
        (-74, 0, len, 1)

/-- Modelled from the spec: the caller-side classification of a failed
decrypt/verify.  The error-code out-parameter (initialised to 0 by the
caller) distinguishes integrity failure (1) from malformed length (2);
any other negative return with the cell untouched is an underlying
primitive error carrying the primitive's code. -/
def classifyFail (ret : Int) (ec : Int) : Option KrbFail :=
  if 0 ≤ ret then none
  else if ec = 1 then some .badChecksum
  else if ec = 2 then some .shortLength
  else some (.primitiveFail ret)

/-! ## The per-key-number context (struct rxgk_context) -/

/-- An encryption key coupled with a checksum key, embedded from struct
krb5_enc_keys: Ke and Ki always come as a pair as per RFC3961 encrypt().
Key material is abstracted to the number identifying the derivation that
produced it. -/
structure Krb5EncKeys where
  Ke : Nat
  Ki : Nat
  deriving Repr, DecidableEq

/-- Bit number of the needs-rekey flag in the context's flags word. -/
def RXGK_TK_NEEDS_REKEY : Nat := 0

/-- The per-key-number context, embedded from struct rxgk_context: a
reference count, the rekeying number carried in the rx header, a flags
word holding the needs-rekey bit, the expiry time, the remaining signed
transmit byte budget, the enctype, and the derived key material (two
directional enc/checksum pairs, two directional checksum keys, and the
response-packet pair). -/
structure RxgkContext where
  usage : Nat
  key_number : Nat
  flags : Nat
  expiry : Nat
  bytes_remaining : Int
  krb5 : Krb5Enctype
  tx_enc : Krb5EncKeys
  rx_enc : Krb5EncKeys
  tx_Kc : Nat
  rx_Kc : Nat
  resp_enc : Krb5EncKeys
  deriving Repr, DecidableEq

/-- Whether the context's needs-rekey flag bit is set. -/
def needsRekey (gk : RxgkContext) : Bool :=
  gk.flags.testBit RXGK_TK_NEEDS_REKEY

/-- Modelled from the spec: the transmit byte-budget debit performed
alongside each successful encrypt (the debiting code is not under src/;
src only declares the bytes_remaining field and the RXGK_TK_NEEDS_REKEY
flag bit).  A successful encrypt of len plaintext bytes debits
bytes_remaining by len and sets the needs-rekey bit when the budget
drops to or below the configured low-water threshold. -/
def rxgkDebit (threshold : Int) (gk : RxgkContext) (len : Nat) : RxgkContext :=
  let b := gk.bytes_remaining - (len : Int)
  { gk with
    bytes_remaining := b
    flags := if b ≤ threshold then gk.flags ||| (1 <<< RXGK_TK_NEEDS_REKEY)
             else gk.flags }

/-! ## The enctype registry -/

/-- Modelled from the spec: `crypto_krb5_find_enctype` is not under src/
(only its declaration is).  The registry is a fixed table of enctype
descriptors; the lookup scans it for a matching etype and returns the
registered descriptor, or nothing for an unrecognized id — never a
default or zero-filled descriptor. -/
def crypto_krb5_find_enctype (table : List Krb5Enctype) (enctype : Int) :
    Option Krb5Enctype :=
  table.find? (fun k => k.etype == enctype)

/-! ## Transport-key derivation -/

/-- The derivation DK(TK, constant) of one purpose-bound key from the
transport key, abstracted to an injective pairing: distinct usage
constants yield distinct keys. -/
def DK (tk usage : Nat) : Nat := Nat.pair tk usage

/-- Modelled from the spec: `rxgk_generate_transport_key` is not under
src/ (only its declaration is).  It derives the context's purpose-bound
key material from the transport key, each key by DK(TK, constant) with
its own distinct usage constant, and assembles the context with the
caller's key number, a clear flags word, the configured byte-lifetime
budget and the configured expiry. -/
def rxgk_generate_transport_key (krb5 : Krb5Enctype) (tk : Nat)
    (key_number : Nat) (budget : Int) (expiry : Nat) : RxgkContext :=
  { usage := 1, key_number := key_number, flags := 0, expiry := expiry,
    bytes_remaining := budget, krb5 := krb5,
    tx_enc := ⟨DK tk 1, DK tk 2⟩,
    rx_enc := ⟨DK tk 3, DK tk 4⟩,
    tx_Kc := DK tk 5,
    rx_Kc := DK tk 6,
    resp_enc := ⟨DK tk 7, DK tk 8⟩ }

/-- The derived key material a context holds, listed slot by slot: the
transmit pair's encryption and checksum keys, the receive pair's, the
two standalone directional checksum keys, and the response pair's. -/
def contextKeys (gk : RxgkContext) : List Nat :=
  [gk.tx_enc.Ke, gk.tx_enc.Ki, gk.rx_enc.Ke, gk.rx_enc.Ki,
   gk.tx_Kc, gk.rx_Kc, gk.resp_enc.Ke, gk.resp_enc.Ki]

/-! ## Context reference lifecycle -/

/-- One generation's lifecycle state: its reference count and whether it
has been retired (keys zeroed, memory released). -/
structure CtxLife where
  refs : Nat
  retired : Bool
  deriving Repr, DecidableEq

/-- The lifecycle events a context sees: an in-flight operation taking a
reference, and rxgk_put releasing one. -/
inductive LifeOp where
  | get
  | put
  deriving Repr, DecidableEq

/-- Modelled from the spec: `rxgk_put` is not under src/ (only its
declaration is).  A put decrements the reference count and, exactly when
the count reaches zero, retires the context (zeroes its keys and
releases the memory); taking a reference increments the count. -/
def lifeStep : CtxLife → LifeOp → CtxLife
  | s, .get => { s with refs := s.refs + 1 }
  | s, .put =>
    if s.refs = 1 then { refs := 0, retired := true }
    else { s with refs := s.refs - 1 }

/-- Run a sequence of lifecycle events. -/
def lifeRun (s : CtxLife) : List LifeOp → CtxLife
  | [] => s
  | op :: ops => lifeRun (lifeStep s op) ops

/-- Traces respecting the reference discipline: every event happens while
the count is still positive (a get is taken under an existing reference,
a put releases a held one). -/
def ValidTrace : CtxLife → List LifeOp → Prop
  | _, [] => True
  | s, op :: ops => 0 < s.refs ∧ ValidTrace (lifeStep s op) ops

/-- How many events of a trace retire the context. -/
def retireCount (s : CtxLife) : List LifeOp → Nat
  | [] => 0
  | op :: ops =>
    (if (lifeStep s op).retired && !s.retired then 1 else 0)
      + retireCount (lifeStep s op) ops

end Rxgk

namespace Nfs

/-! ## The referral-loop guard (fs/nfs/nfs4super.c)

The global list of per-task nesting counters is embedded as an explicit
list value threaded through the operations; the current task is an
opaque identifier.
-/

/-- One entry of the referral-count list: the owning task and its
nesting count (struct nfs_referral_count). -/
structure ReferralCount where
  task : Nat
  referral_count : Nat
  deriving Repr, DecidableEq

/-- The nesting cap NFS_MAX_NESTED_REFERRALS. -/
def NFS_MAX_NESTED_REFERRALS : Nat := 2

/-- `nfs_find_referral_count`: scan the list for the current task's
entry. -/
def nfs_find_referral_count (list : List ReferralCount) (current : Nat) :
    Option ReferralCount :=
  list.find? (fun p => p.task == current)

/-- The current task's nesting count, zero when it has no entry. -/
def taskCount (list : List ReferralCount) (current : Nat) : Nat :=
  match nfs_find_referral_count list current with
  | some p => p.referral_count
  | none => 0

/-- `nfs_referral_loop_protect`: with the allocation done up front
(allocOk false embeds kmalloc failure, returning -ENOMEM with the list
untouched), look the current task up; an existing entry at or above the
cap fails with -ELOOP, an existing entry below the cap is incremented,
and a missing entry is added with count 1.  Returns the result and the
updated list. -/
def nfs_referral_loop_protect (list : List ReferralCount) (current : Nat)
    (allocOk : Bool) : Int × List ReferralCount :=
  if !allocOk then (-12, list)
  else
    match nfs_find_referral_count list current with
    | some p =>
      if NFS_MAX_NESTED_REFERRALS ≤ p.referral_count then (-30, list)
      else
        (0, list.map (fun q =>
          if q.task == current then { q with referral_count := q.referral_count + 1 }
          else q))
    | none => (0, ⟨current, 1⟩ :: list)

/-- `nfs_referral_loop_unprotect`: decrement the current task's entry
and delete it exactly when the count returns to zero.  The C code
dereferences the entry unconditionally, so a call without an entry is
outside the embedding's scope (modelled as leaving the list unchanged);
the theorems presuppose an entry exists. -/
def nfs_referral_loop_unprotect (list : List ReferralCount) (current : Nat) :
    List ReferralCount :=
  match nfs_find_referral_count list current with
  | some p =>
    if p.referral_count - 1 = 0 then
      list.filter (fun q => !(q.task == current))
    else
      list.map (fun q =>
        if q.task == current then { q with referral_count := q.referral_count - 1 }
        else q)
  | none => list

/-- Well-formedness of the referral-count list: entries belong to
pairwise distinct tasks. -/
def WFList (list : List ReferralCount) : Prop :=
  List.Pairwise (fun a b => a.task ≠ b.task) list

/-- The guard's cap invariant: no task holds more than
NFS_MAX_NESTED_REFERRALS nested traversals. -/
def BoundedList (list : List ReferralCount) : Prop :=
  ∀ p ∈ list, p.referral_count ≤ NFS_MAX_NESTED_REFERRALS

/-! ## Path reconstruction (fs/nfs/namespace.c, nfs_path)

A dentry chain is embedded as the list of component names from the
starting dentry up to (excluding) the root, bottom first, plus the
root's d_fsdata devname (none embeds a NULL d_fsdata).  The buffer is
embedded by its remaining byte budget (ssize_t, signed); the string
being assembled right-to-left is modelled by prepending.
-/

/-- Drop the trailing '/' characters of a devname, as the
namelen-decrementing loop of nfs_path does. -/
def stripTrailingSlashes (s : String) : String :=
  ⟨(s.data.reverse.dropWhile (fun c => c == '/')).reverse⟩

/-- The while(1) walk of nfs_path: for each non-root dentry, debit
namelen + 1 from the budget, fail with -ENAMETOOLONG when it goes
negative, else prepend the name and a slash and move to the parent.
Returns the assembled component string and the remaining budget. -/
def nfsWalk : List String → Int → Except Int (String × Int)
  | [], buflen => .ok ("", buflen)
  | n :: rest, buflen =>
    let b := buflen - ((n.length : Int) + 1)
    if b < 0 then .error (-36)
    else
      match nfsWalk rest b with
      | .error e => .error e
      | .ok (acc, b2) => .ok (acc ++ "/" ++ n, b2)

/-- The devname step of nfs_path: a NULL d_fsdata warns and returns the
component string as is; otherwise the base is copied in front (stripped
of trailing slashes when the character at the current end is a slash),
failing with -ENAMETOOLONG when the budget runs out. -/
def nfs_path_base (base : Option String) (acc : String) (b : Int)
    (endIsSlash : Bool) : Except Int String :=
  match base with
  | none => .ok acc
  | some s =>
    let s2 := if endIsSlash then stripTrailingSlashes s else s
    if b - (s2.length : Int) < 0 then .error (-36)
    else .ok (s2 ++ acc)

/-- The post-walk tail of nfs_path: under NFS_PATH_CANONICAL, when the
character at the end is not a slash (which happens exactly when no
component was written), debit one byte and insert the slash, then hand
over to the devname step. -/
def nfs_path_finish (base : Option String) (acc : String) (b : Int)
    (canonical : Bool) : Except Int String :=
  if canonical ∧ acc = "" then
    if b - 1 < 0 then .error (-36)
    else nfs_path_base base "/" (b - 1) true
  else
    nfs_path_base base acc b (acc != "")

/-- nfs_path as written: the rename_retry label re-enters with the
dentry cursor and buffer budget left wherever the previous attempt put
them (the function has no dentry_in/buflen_in reset).  The Nat argument
counts the attempts whose end-of-walk rename_lock reread reports a
concurrent rename (the lock is a global counter, so this fires even
when this chain is unchanged); after such an attempt the walk has
parked the cursor at the root, so the retry walks an empty chain with
the shrunken budget.  A raced attempt that overflowed mid-walk would
re-enter with a negative budget and write before the buffer start —
undefined behaviour — so the embedding covers the overflow exit only
with an unchanged counter, as -ENAMETOOLONG. -/
def nfs_path_code (base : Option String) (canonical : Bool) :
    Nat → List String → Int → Except Int String
  | 0, names, buflen =>
    match nfsWalk names (buflen - 1) with
    | .error e => .error e
    | .ok (acc, b) => nfs_path_finish base acc b canonical
  | r + 1, names, buflen =>
    match nfsWalk names (buflen - 1) with
    | .error e => .error e
    | .ok (_, b) => nfs_path_code base canonical r [] b

/-- The components of the full untruncated server path, joined top
down with a slash before each. -/
def joinNames : List String → String
  | [] => ""
  | n :: rest => joinNames rest ++ "/" ++ n

/-- The full untruncated path the claim expects nfs_path to produce:
the devname (stripped of excess slashes when followed by a slash, kept
verbatim when it stands alone without NFS_PATH_CANONICAL) followed by
every component of the chain. -/
def nfsFullPath (names : List String) (base : Option String)
    (canonical : Bool) : String :=
  let comp := if canonical ∧ names = [] then "/" else joinNames names
  match base with
  | none => comp
  | some s =>
    if names = [] ∧ ¬canonical then s
    else stripTrailingSlashes s ++ comp

end Nfs

/-- A concrete enctype for witnesses, shaped like aes128-cts-hmac-sha1-96. -/
def aes128Enct : Rxgk.Krb5Enctype :=
  { etype := 17, ctype := 15, name := "aes128-cts-hmac-sha1-96",
    encrypt_name := "cts(cbc(aes))", cksum_name := "hmac(sha1)",
    hash_name := "sha1", block_len := 16, conf_len := 16, cksum_len := 12,
    key_bytes := 16, key_len := 16, hash_len := 20, prf_len := 16,
    Kc_len := 16, Ke_len := 16, Ki_len := 16, keyed_cksum := true,
    pad := false }

/-- A concrete context used by the C4 example: budget 1500, flag clear. -/
def exCtx : Rxgk.RxgkContext :=
  { usage := 1, key_number := 0, flags := 0, expiry := 0,
    bytes_remaining := 1500, krb5 := aes128Enct,
    tx_enc := ⟨1, 2⟩, rx_enc := ⟨3, 4⟩, tx_Kc := 5, rx_Kc := 6,
    resp_enc := ⟨7, 8⟩ }

/-- Sanity example: a range spanning 17 one-byte fragments exceeds the cap. -/
example : Rxgk.skb_to_sgvec (List.replicate 17 1) 0 17 = -90 := by decide

example : Rxgk.skb_to_sgvec [4, 4] 2 4 = 2 := by decide

example : Rxgk.sub16 5 9 = 65532 := by decide

/-- C1: every encrypt, decrypt, get_mic and verify_mic glue operation
addresses at most 16 discontiguous fragments; when the requested secure
range spans more fragments than that cap, the negative hard failure of
skb_to_sgvec is returned to the caller, no cryptographic transform is
performed (the result is the same for every possible crypto layer), and
for decrypt/verify the in/out offset, length and error-code cells are
left untouched. -/
theorem C1_fragment_cap (skb : List Nat) (so sl doff dl : Nat) (pre : Bool)
    (off len : Nat) (ec : Int)
    (henc : Rxgk.SG_MAX < Rxgk.fragsSpanned skb so sl)
    (hdec : Rxgk.SG_MAX < Rxgk.fragsSpanned skb off len) :
    ((-90 : Int) < 0) ∧
    (∀ f, Rxgk.rxgk_encrypt_skb f skb so sl doff dl pre = -90) ∧
    (∀ f, Rxgk.rxgk_get_mic_skb f skb so sl doff dl = -90) ∧
    (∀ f, Rxgk.rxgk_decrypt_skb f skb off len ec = ⟨-90, off, len, ec⟩) ∧
    (∀ f, Rxgk.rxgk_verify_mic_skb f skb off len ec = ⟨-90, off, len, ec⟩) := by
  have h1 : Rxgk.skb_to_sgvec skb so sl = -90 := by
    unfold Rxgk.skb_to_sgvec
    simp [Nat.not_le.mpr henc]
  have h2 : Rxgk.skb_to_sgvec skb off len = -90 := by
    unfold Rxgk.skb_to_sgvec
    simp [Nat.not_le.mpr hdec]
  refine ⟨by norm_num, ?_, ?_, ?_, ?_⟩
  · intro f
    unfold Rxgk.rxgk_encrypt_skb
    rw [h1]
    norm_num
  · intro f
    unfold Rxgk.rxgk_get_mic_skb
    rw [h1]
    norm_num
  · intro f
    unfold Rxgk.rxgk_decrypt_skb
    rw [h2]
    norm_num
  · intro f
    unfold Rxgk.rxgk_verify_mic_skb
    rw [h2]
    norm_num

/-- Witness for C1 at a concrete 17-fragment buffer. -/
theorem C1_fragment_cap_witness :
    Rxgk.rxgk_encrypt_skb (fun _ _ _ _ _ => 7) (List.replicate 17 1) 0 17 3 4 true = -90 ∧
    Rxgk.rxgk_decrypt_skb (fun _ _ _ => (0, 1, 2, 3)) (List.replicate 17 1) 0 17 0 =
      ⟨-90, 0, 17, 0⟩ := by
  have h := C1_fragment_cap (List.replicate 17 1) 0 17 3 4 true 0 17 0
    (by decide) (by decide)
  exact ⟨h.2.1 _, h.2.2.2.1 _⟩

/-- C9: in the encrypt and get_mic glue, the data offset handed to the
crypto layer is the u16 difference data_offset - secure_offset with no
validity check: whenever the scatterlist was built, the crypto layer is
invoked with sub16 data_offset secure_offset, which equals the exact
difference when secure_offset ≤ data_offset and the value wrapped modulo
2^16 when data_offset < secure_offset, and no error is raised at this
layer in the wrapping case (the glue returns whatever the crypto layer
returns). -/
theorem C9_u16_offset_wrap (skb : List Nat) (so sl doff dl : Nat) (pre : Bool)
    (hso : so < 65536) (hdo : doff < 65536)
    (hsg : 0 ≤ Rxgk.skb_to_sgvec skb so sl) :
    (∀ f, Rxgk.rxgk_encrypt_skb f skb so sl doff dl pre =
        f (Rxgk.skb_to_sgvec skb so sl).toNat sl (Rxgk.sub16 doff so) dl pre) ∧
    (∀ g, Rxgk.rxgk_get_mic_skb g skb so sl doff dl =
        g (Rxgk.skb_to_sgvec skb so sl).toNat sl (Rxgk.sub16 doff so) dl) ∧
    (so ≤ doff → Rxgk.sub16 doff so = doff - so) ∧
    (doff < so → Rxgk.sub16 doff so = 65536 - (so - doff)) := by
  have hnot : ¬ Rxgk.skb_to_sgvec skb so sl < 0 := not_lt.mpr hsg
  refine ⟨?_, ?_, ?_, ?_⟩
  · intro f
    unfold Rxgk.rxgk_encrypt_skb
    rw [if_neg hnot]
  · intro g
    unfold Rxgk.rxgk_get_mic_skb
    rw [if_neg hnot]
  · intro hle
    unfold Rxgk.sub16
    omega
  · intro hlt
    unfold Rxgk.sub16
    omega

/-- Witness for C9 at a concrete wrapping input: data offset 3 rebased
against secure offset 5 becomes 65534 and is passed to the crypto layer. -/
theorem C9_u16_offset_wrap_witness :
    Rxgk.rxgk_encrypt_skb (fun _ _ d _ _ => (d : Int)) [16] 5 4 3 2 false = 65534 := by
  have h := C9_u16_offset_wrap [16] 5 4 3 2 false (by decide) (by decide) (by decide)
  rw [h.1 (fun _ _ d _ _ => (d : Int))]
  norm_num [Rxgk.sub16]

/-- C2: on every successful call, rxgk_decrypt_skb and rxgk_verify_mic_skb
leave in their in/out cells exactly the input offset plus the delta
produced by the underlying operation and the length reported by it (true
for an arbitrary underlying operation), and with the spec-modelled
underlying operations a success bounds just the recovered plaintext:
decrypt advances the offset past the confounder and excludes confounder,
checksum and padding from the length, verify_mic advances past the MIC
and excludes it from the length. -/
theorem C2_success_bounds (krb5 : Rxgk.Krb5Enctype) (padLen : Nat)
    (skb : List Nat) (off len : Nat) (ec0 : Int)
    (hsg : 0 ≤ Rxgk.skb_to_sgvec skb off len) :
    (∀ op, Rxgk.rxgk_decrypt_skb op skb off len ec0 =
      ⟨(op (Rxgk.skb_to_sgvec skb off len).toNat len ec0).1,
       off + (op (Rxgk.skb_to_sgvec skb off len).toNat len ec0).2.1,
       (op (Rxgk.skb_to_sgvec skb off len).toNat len ec0).2.2.1,
       (op (Rxgk.skb_to_sgvec skb off len).toNat len ec0).2.2.2⟩) ∧
    (∀ op, Rxgk.rxgk_verify_mic_skb op skb off len ec0 =
      ⟨(op (Rxgk.skb_to_sgvec skb off len).toNat len ec0).1,
       off + (op (Rxgk.skb_to_sgvec skb off len).toNat len ec0).2.1,
       (op (Rxgk.skb_to_sgvec skb off len).toNat len ec0).2.2.1,
       (op (Rxgk.skb_to_sgvec skb off len).toNat len ec0).2.2.2⟩) ∧
    (krb5.conf_len + krb5.cksum_len ≤ len →
      Rxgk.rxgk_decrypt_skb (Rxgk.crypto_krb5_decrypt krb5 true none padLen)
          skb off len ec0 =
        ⟨0, off + krb5.conf_len,
         len - krb5.conf_len - krb5.cksum_len - padLen, ec0⟩) ∧
    (krb5.cksum_len ≤ len →
      Rxgk.rxgk_verify_mic_skb (Rxgk.crypto_krb5_verify_mic krb5 true none)
          skb off len ec0 =
        ⟨0, off + krb5.cksum_len, len - krb5.cksum_len, ec0⟩) := by
  have hnot : ¬ Rxgk.skb_to_sgvec skb off len < 0 := not_lt.mpr hsg
  refine ⟨?_, ?_, ?_, ?_⟩
  · intro op
    unfold Rxgk.rxgk_decrypt_skb
    rw [if_neg hnot]
  · intro op
    unfold Rxgk.rxgk_verify_mic_skb
    rw [if_neg hnot]
  · intro hlen
    unfold Rxgk.rxgk_decrypt_skb
    rw [if_neg hnot]
    unfold Rxgk.crypto_krb5_decrypt
    rw [if_neg (not_lt.mpr hlen)]
    simp
  · intro hlen
    unfold Rxgk.rxgk_verify_mic_skb
    rw [if_neg hnot]
    unfold Rxgk.crypto_krb5_verify_mic
    rw [if_neg (not_lt.mpr hlen)]
    simp

/-- Witness for C2: a 40-byte region at offset 4 of a contiguous 64-byte
buffer decrypts to offset 20 (confounder stripped) and length 10
(checksum 12 and padding 2 excluded). -/
theorem C2_success_bounds_witness :
    Rxgk.rxgk_decrypt_skb (Rxgk.crypto_krb5_decrypt aes128Enct true none 2)
        [64] 4 40 0 = ⟨0, 20, 10, 0⟩ ∧
    Rxgk.rxgk_verify_mic_skb (Rxgk.crypto_krb5_verify_mic aes128Enct true none)
        [64] 4 40 0 = ⟨0, 16, 28, 0⟩ := by
  have h := C2_success_bounds aes128Enct 2 [64] 4 40 0 (by decide)
  exact ⟨h.2.2.1 (by decide), h.2.2.2 (by decide)⟩

/-- C3: a failing decrypt or verify_mic reports its cause through the
return value together with the error-code out-parameter, and the three
causes are disjoint and recoverable by the caller: malformed length
(region shorter than confounder+checksum, resp. checksum) gives -71 with
code 2; an underlying primitive error returns the primitive's negative
code with the caller's initial 0 untouched; a checksum/MIC mismatch gives
-74 with code 1 and leaves the offset and length cells at their input
values (the packet is merely dropped). -/
theorem C3_error_taxonomy (krb5 : Rxgk.Krb5Enctype) (padLen : Nat) (e : Int)
    (skb : List Nat) (off len : Nat)
    (hsg : 0 ≤ Rxgk.skb_to_sgvec skb off len) (he : e < 0) :
    (len < krb5.conf_len + krb5.cksum_len →
      ∀ cksumOk primErr,
        Rxgk.rxgk_decrypt_skb (Rxgk.crypto_krb5_decrypt krb5 cksumOk primErr padLen)
            skb off len 0 = ⟨-71, off, len, 2⟩) ∧
    (krb5.conf_len + krb5.cksum_len ≤ len →
      ∀ cksumOk,
        Rxgk.rxgk_decrypt_skb (Rxgk.crypto_krb5_decrypt krb5 cksumOk (some e) padLen)
            skb off len 0 = ⟨e, off, len, 0⟩) ∧
    (krb5.conf_len + krb5.cksum_len ≤ len →
      Rxgk.rxgk_decrypt_skb (Rxgk.crypto_krb5_decrypt krb5 false none padLen)
          skb off len 0 = ⟨-74, off, len, 1⟩) ∧
    (len < krb5.cksum_len →
      ∀ cksumOk primErr,
        Rxgk.rxgk_verify_mic_skb (Rxgk.crypto_krb5_verify_mic krb5 cksumOk primErr)
            skb off len 0 = ⟨-71, off, len, 2⟩) ∧
    (krb5.cksum_len ≤ len →
      ∀ cksumOk,
        Rxgk.rxgk_verify_mic_skb (Rxgk.crypto_krb5_verify_mic krb5 cksumOk (some e))
            skb off len 0 = ⟨e, off, len, 0⟩) ∧
    (krb5.cksum_len ≤ len →
      Rxgk.rxgk_verify_mic_skb (Rxgk.crypto_krb5_verify_mic krb5 false none)
          skb off len 0 = ⟨-74, off, len, 1⟩) ∧
    (Rxgk.classifyFail (-71) 2 = some .shortLength ∧
     Rxgk.classifyFail e 0 = some (.primitiveFail e) ∧
     Rxgk.classifyFail (-74) 1 = some .badChecksum) := by
  have hnot : ¬ Rxgk.skb_to_sgvec skb off len < 0 := not_lt.mpr hsg
  refine ⟨?_, ?_, ?_, ?_, ?_, ?_, ?_, ?_, ?_⟩
  · intro hlen cksumOk primErr
    unfold Rxgk.rxgk_decrypt_skb
    rw [if_neg hnot]
    unfold Rxgk.crypto_krb5_decrypt
    rw [if_pos hlen]
    simp
  · intro hlen cksumOk
    unfold Rxgk.rxgk_decrypt_skb
    rw [if_neg hnot]
    unfold Rxgk.crypto_krb5_decrypt
    rw [if_neg (not_lt.mpr hlen)]
    simp
  · intro hlen
    unfold Rxgk.rxgk_decrypt_skb
    rw [if_neg hnot]
    unfold Rxgk.crypto_krb5_decrypt
    rw [if_neg (not_lt.mpr hlen)]
    simp
  · intro hlen cksumOk primErr
    unfold Rxgk.rxgk_verify_mic_skb
    rw [if_neg hnot]
    unfold Rxgk.crypto_krb5_verify_mic
    rw [if_pos hlen]
    simp
  · intro hlen cksumOk
    unfold Rxgk.rxgk_verify_mic_skb
    rw [if_neg hnot]
    unfold Rxgk.crypto_krb5_verify_mic
    rw [if_neg (not_lt.mpr hlen)]
    simp
  · intro hlen
    unfold Rxgk.rxgk_verify_mic_skb
    rw [if_neg hnot]
    unfold Rxgk.crypto_krb5_verify_mic
    rw [if_neg (not_lt.mpr hlen)]
    simp
  · unfold Rxgk.classifyFail
    norm_num
  · unfold Rxgk.classifyFail
    rw [if_neg (not_le.mpr he)]
    norm_num
  · unfold Rxgk.classifyFail
    norm_num

/-- C4 counterexample: with threshold 1000 and initial budget 1500, the
first 600-byte encryption already drives the budget to 900 ≤ 1000 and
sets the needs-rekey flag, so the clear-to-set flip is observed on the
first, not the second, of two 600-byte encryptions. -/
theorem C4_budget_counterexample :
    Rxgk.needsRekey exCtx = false ∧
    Rxgk.needsRekey (Rxgk.rxgkDebit 1000 exCtx 600) = true ∧
    (Rxgk.rxgkDebit 1000 exCtx 600).bytes_remaining = 900 := by decide

/-- C4 (amended): bytes_remaining decreases by exactly the plaintext
length on every successful encrypt debit (strictly so for a nonempty
plaintext), and the needs-rekey flag transitions from clear to set
exactly on the operation whose debit brings the budget to or below the
configured low-water threshold (with threshold 1000 and initial budget
1500, already the first of two 600-byte encryptions observes the flip);
once set, the flag stays set. -/
theorem C4_budget_rekey (threshold : Int) (gk : Rxgk.RxgkContext) (len : Nat) :
    (Rxgk.rxgkDebit threshold gk len).bytes_remaining =
      gk.bytes_remaining - (len : Int) ∧
    (0 < len →
      (Rxgk.rxgkDebit threshold gk len).bytes_remaining < gk.bytes_remaining) ∧
    (Rxgk.needsRekey gk = false →
      (Rxgk.needsRekey (Rxgk.rxgkDebit threshold gk len) = true ↔
        gk.bytes_remaining - (len : Int) ≤ threshold)) ∧
    (Rxgk.needsRekey gk = true →
      Rxgk.needsRekey (Rxgk.rxgkDebit threshold gk len) = true) := by
  refine ⟨rfl, ?_, ?_, ?_⟩
  · intro hlen
    show gk.bytes_remaining - (len : Int) < gk.bytes_remaining
    omega
  · intro hclear
    unfold Rxgk.needsRekey Rxgk.rxgkDebit at *
    by_cases hb : gk.bytes_remaining - (len : Int) ≤ threshold
    · simp only [hb, if_true, Nat.testBit_or]
      simp [hb, Rxgk.RXGK_TK_NEEDS_REKEY]
    · simp only [hb, if_false]
      simp [hclear, hb]
  · intro hset
    unfold Rxgk.needsRekey Rxgk.rxgkDebit at *
    by_cases hb : gk.bytes_remaining - (len : Int) ≤ threshold
    · simp only [hb, if_true, Nat.testBit_or]
      simp [hset]
    · simp only [hb, if_false]
      exact hset

/-- Witness for C4 (amended) at the example numbers: the first 600-byte
debit from 1500 with threshold 1000 flips the flag. -/
theorem C4_budget_rekey_witness :
    0 < 600 ∧ Rxgk.needsRekey exCtx = false ∧
    ((Rxgk.rxgkDebit 1000 exCtx 600).bytes_remaining < exCtx.bytes_remaining ∧
     Rxgk.needsRekey (Rxgk.rxgkDebit 1000 exCtx 600) = true) := by
  have h := C4_budget_rekey 1000 exCtx 600
  refine ⟨by norm_num, by decide, h.2.1 (by norm_num), ?_⟩
  exact (h.2.2.1 (by decide)).mpr (by decide)

/-- C6: the enctype lookup is a pure function of the registry table and
the requested id; when it returns a descriptor, that descriptor is one
registered in the table under exactly the requested id (never a default
or zero-filled one), and it returns nothing precisely when no registered
descriptor carries the id. -/
theorem C6_find_enctype (table : List Rxgk.Krb5Enctype) (id : Int) :
    (∀ k, Rxgk.crypto_krb5_find_enctype table id = some k →
      k ∈ table ∧ k.etype = id) ∧
    (Rxgk.crypto_krb5_find_enctype table id = none ↔
      ∀ k ∈ table, k.etype ≠ id) := by
  constructor
  · intro k hk
    unfold Rxgk.crypto_krb5_find_enctype at hk
    refine ⟨List.mem_of_find?_eq_some hk, ?_⟩
    have := List.find?_some hk
    simpa using this
  · unfold Rxgk.crypto_krb5_find_enctype
    rw [List.find?_eq_none]
    constructor
    · intro h k hk
      have := h k hk
      simpa using this
    · intro h k hk
      simpa using h k hk

/-- Witness for C6 on a one-entry registry: id 17 finds the registered
descriptor, id 99 is not found. -/
theorem C6_find_enctype_witness :
    Rxgk.crypto_krb5_find_enctype [aes128Enct] 17 = some aes128Enct ∧
    Rxgk.crypto_krb5_find_enctype [aes128Enct] 99 = none := by
  refine ⟨by decide, ?_⟩
  exact (C6_find_enctype [aes128Enct] 99).2.mpr (by decide)

/-- Witness for C3: the three failure shapes at concrete inputs. -/
theorem C3_error_taxonomy_witness :
    Rxgk.rxgk_decrypt_skb (Rxgk.crypto_krb5_decrypt aes128Enct true none 0)
        [64] 4 8 0 = ⟨-71, 4, 8, 2⟩ ∧
    Rxgk.rxgk_decrypt_skb (Rxgk.crypto_krb5_decrypt aes128Enct true (some (-22)) 0)
        [64] 4 40 0 = ⟨-22, 4, 40, 0⟩ ∧
    Rxgk.rxgk_decrypt_skb (Rxgk.crypto_krb5_decrypt aes128Enct false none 0)
        [64] 4 40 0 = ⟨-74, 4, 40, 1⟩ := by
  have h := C3_error_taxonomy aes128Enct 0 (-22) [64] 4 8 (by decide) (by decide)
  have h2 := C3_error_taxonomy aes128Enct 0 (-22) [64] 4 40 (by decide) (by decide)
  exact ⟨h.1 (by decide) true none, h2.2.1 (by decide) true, h2.2.2.1 (by decide)⟩

/-- Helper: validity is inherited by every prefix of a trace. -/
theorem validTrace_take (ops : List Rxgk.LifeOp) :
    ∀ (k : Nat) (s : Rxgk.CtxLife), Rxgk.ValidTrace s ops →
      Rxgk.ValidTrace s (ops.take k) := by
  induction ops with
  | nil => intro k s _; cases k <;> exact trivial
  | cons op ops ih =>
    intro k s hv
    cases k with
    | zero => exact trivial
    | succ k => exact ⟨hv.1, ih k _ hv.2⟩

/-- Helper: along a reference-valid trace the lifecycle invariant holds:
the context is retired exactly when its reference count is zero. -/
theorem lifeRun_inv (ops : List Rxgk.LifeOp) :
    ∀ s : Rxgk.CtxLife, Rxgk.ValidTrace s ops →
      (s.retired = true ↔ s.refs = 0) →
      ((Rxgk.lifeRun s ops).retired = true ↔ (Rxgk.lifeRun s ops).refs = 0) := by
  induction ops with
  | nil => intro s _ h; exact h
  | cons op ops ih =>
    intro s hv hinv
    have h0 : 0 < s.refs := hv.1
    have hret : s.retired = false := by
      cases hr : s.retired
      · rfl
      · exact absurd (hinv.mp hr) (by omega)
    refine ih (Rxgk.lifeStep s op) hv.2 ?_
    cases op with
    | get =>
      simp only [Rxgk.lifeStep, hret]
      constructor
      · intro h; exact absurd h (by simp)
      · intro h; omega
    | put =>
      by_cases h1 : s.refs = 1
      · simp [Rxgk.lifeStep, h1]
      · simp only [Rxgk.lifeStep, if_neg h1, hret]
        constructor
        · intro h; exact absurd h (by simp)
        · intro h; omega

/-- Helper: along a reference-valid trace from an unretired state, the
number of retiring events is one when the final state is retired and
zero otherwise (the retire can only be the trace's last event, since
validity forbids touching a context whose count reached zero). -/
theorem retireCount_eq (ops : List Rxgk.LifeOp) :
    ∀ s : Rxgk.CtxLife, Rxgk.ValidTrace s ops → s.retired = false →
      Rxgk.retireCount s ops =
        (if (Rxgk.lifeRun s ops).retired then 1 else 0) := by
  induction ops with
  | nil =>
    intro s _ hret
    simp [Rxgk.retireCount, Rxgk.lifeRun, hret]
  | cons op ops ih =>
    intro s hv hret
    cases op with
    | get =>
      have hstep : (Rxgk.lifeStep s .get).retired = s.retired := rfl
      simp only [Rxgk.retireCount, Rxgk.lifeRun, hstep, hret]
      simp only [Bool.false_and, if_neg (by simp : ¬ (false = true)), Nat.zero_add]
      exact ih _ hv.2 (by simp [hstep, hret])
    | put =>
      by_cases h1 : s.refs = 1
      · have hstep : Rxgk.lifeStep s .put = ⟨0, true⟩ := by
          simp [Rxgk.lifeStep, h1]
        cases ops with
        | nil =>
          simp [Rxgk.retireCount, Rxgk.lifeRun, hstep, hret]
        | cons op2 ops2 =>
          exfalso
          have hpos := hv.2.1
          rw [hstep] at hpos
          simp at hpos
      · have hret2 : (Rxgk.lifeStep s .put).retired = false := by
          simp [Rxgk.lifeStep, h1, hret]
        simp only [Rxgk.retireCount, Rxgk.lifeRun, hret2, Bool.false_and,
          if_neg (by simp : ¬ (false = true)), Nat.zero_add]
        exact ih _ hv.2 hret2

/-- C5: starting from any positive reference count, along every trace
respecting the reference discipline the context is never retired (keys
zeroed, memory freed) while its count is nonzero — at every prefix of
the trace, retired holds exactly when the count is zero — and the
context is retired at most once, exactly when the count reaches zero. -/
theorem C5_ref_lifecycle (n : Nat) (ops : List Rxgk.LifeOp) (hn : 0 < n)
    (hv : Rxgk.ValidTrace ⟨n, false⟩ ops) :
    (∀ k, (Rxgk.lifeRun ⟨n, false⟩ (ops.take k)).retired = true ↔
        (Rxgk.lifeRun ⟨n, false⟩ (ops.take k)).refs = 0) ∧
    Rxgk.retireCount ⟨n, false⟩ ops ≤ 1 ∧
    (Rxgk.retireCount ⟨n, false⟩ ops = 1 ↔
      (Rxgk.lifeRun ⟨n, false⟩ ops).retired = true) := by
  have hinv0 : (({ refs := n, retired := false } : Rxgk.CtxLife).retired = true ↔
      ({ refs := n, retired := false } : Rxgk.CtxLife).refs = 0) := by
    constructor
    · intro h; exact absurd h (by simp)
    · intro h; exfalso; simp only [] at h; omega
  refine ⟨?_, ?_, ?_⟩
  · intro k
    exact lifeRun_inv (ops.take k) _ (validTrace_take ops k _ hv) hinv0
  · rw [retireCount_eq ops _ hv rfl]
    split <;> omega
  · rw [retireCount_eq ops _ hv rfl]
    split <;> simp_all

/-- Witness for C5 on a concrete trace: from two references, a put, a
get, and two more puts retire the context exactly once, at the final
put. -/
theorem C5_ref_lifecycle_witness :
    Rxgk.retireCount ⟨2, false⟩ [.put, .get, .put, .put] = 1 ∧
    (Rxgk.lifeRun ⟨2, false⟩ [.put, .get, .put, .put]).retired = true ∧
    (Rxgk.lifeRun ⟨2, false⟩ [.put, .get, .put]).retired = false := by
  have h := C5_ref_lifecycle 2 [.put, .get, .put, .put] (by norm_num)
    (by refine ⟨by norm_num, by norm_num [Rxgk.lifeStep], by norm_num [Rxgk.lifeStep],
          by norm_num [Rxgk.lifeStep], trivial⟩)
  exact ⟨h.2.2.mpr (by decide), by decide, by decide⟩

/-- C7 counterexample: the key material the claim itself enumerates
(three encryption/checksum pairs plus the two standalone directional
checksum keys, exactly the slots of struct rxgk_context) comprises eight
pairwise-distinct derived keys, not seven, as evaluation at a concrete
transport key shows. -/
theorem C7_seven_keys_counterexample :
    (Rxgk.contextKeys (Rxgk.rxgk_generate_transport_key aes128Enct 42 0 1500 100)).length
      = 8 ∧
    (Rxgk.contextKeys (Rxgk.rxgk_generate_transport_key aes128Enct 42 0 1500 100)).Nodup ∧
    (8 : Nat) ≠ 7 := by decide

/-- C7 (amended): every context produced by generate_transport_key holds
exactly the enumerated purpose-bound material — transmit pair, receive
pair, transmit checksum key, receive checksum key, response pair — as
eight keys, each derived by DK(TK, constant) with its own distinct usage
constant (the list of held keys has no duplicates), and each encryption
key pair couples one encryption key with one checksum key derived at
adjacent distinct constants. -/
theorem C7_transport_keys (krb5 : Rxgk.Krb5Enctype) (tk key_number : Nat)
    (budget : Int) (expiry : Nat) :
    (Rxgk.contextKeys (Rxgk.rxgk_generate_transport_key krb5 tk key_number budget expiry)
      = [Rxgk.DK tk 1, Rxgk.DK tk 2, Rxgk.DK tk 3, Rxgk.DK tk 4,
         Rxgk.DK tk 5, Rxgk.DK tk 6, Rxgk.DK tk 7, Rxgk.DK tk 8]) ∧
    (Rxgk.contextKeys (Rxgk.rxgk_generate_transport_key krb5 tk key_number budget expiry)).length
      = 8 ∧
    (Rxgk.contextKeys (Rxgk.rxgk_generate_transport_key krb5 tk key_number budget expiry)).Nodup ∧
    (Rxgk.rxgk_generate_transport_key krb5 tk key_number budget expiry).tx_enc
      = ⟨Rxgk.DK tk 1, Rxgk.DK tk 2⟩ ∧
    (Rxgk.rxgk_generate_transport_key krb5 tk key_number budget expiry).rx_enc
      = ⟨Rxgk.DK tk 3, Rxgk.DK tk 4⟩ ∧
    (Rxgk.rxgk_generate_transport_key krb5 tk key_number budget expiry).resp_enc
      = ⟨Rxgk.DK tk 7, Rxgk.DK tk 8⟩ := by
  refine ⟨rfl, rfl, ?_, rfl, rfl, rfl⟩
  simp [Rxgk.contextKeys, Rxgk.rxgk_generate_transport_key, Rxgk.DK,
    List.nodup_cons, Nat.pair_eq_pair]

/-- Helper: looking the current task up in a list mapped by a
task-preserving update of the matching entries equals mapping the update
over the plain lookup. -/
theorem nfs_find_map_update (list : List Nfs.ReferralCount) (t : Nat)
    (g : Nfs.ReferralCount → Nfs.ReferralCount) (hg : ∀ q, (g q).task = q.task) :
    Nfs.nfs_find_referral_count
        (list.map (fun q => if q.task == t then g q else q)) t
      = (Nfs.nfs_find_referral_count list t).map
          (fun q => if q.task == t then g q else q) := by
  unfold Nfs.nfs_find_referral_count
  rw [List.find?_map _ list]
  have hpred : ((fun p : Nfs.ReferralCount => p.task == t)
        ∘ fun q => if q.task == t then g q else q)
      = fun q : Nfs.ReferralCount => q.task == t := by
    funext q
    by_cases h : q.task = t
    · simp [Function.comp, h, hg]
    · simp [Function.comp, h]
  rw [hpred]

/-- Helper: after filtering the current task's entries out, the lookup
finds nothing. -/
theorem nfs_find_filter_out (list : List Nfs.ReferralCount) (t : Nat) :
    Nfs.nfs_find_referral_count
        (list.filter (fun q => !(q.task == t))) t = none := by
  unfold Nfs.nfs_find_referral_count
  rw [List.find?_eq_none]
  intro x hx
  have h := (List.mem_filter.mp hx).2
  simp at h ⊢
  exact h

/-- Helper: in a well-formed list, entries are determined by their
task. -/
theorem nfs_wf_unique (list : List Nfs.ReferralCount) (hwf : Nfs.WFList list) :
    ∀ a ∈ list, ∀ b ∈ list, a.task = b.task → a = b := by
  intro a ha b hb hab
  by_contra hne
  have hsym : Symmetric (fun (x y : Nfs.ReferralCount) => x.task ≠ y.task) := by
    intro x y h
    exact fun hc => h hc.symm
  exact absurd hab (List.Pairwise.forall hsym hwf ha hb hne)

/-- C10: the referral-loop guard keeps one nesting counter per task:
with the allocation in hand, protect creates a count-1 entry for a task
with none, increments an existing count only while it is below
NFS_MAX_NESTED_REFERRALS (2), fails with -ELOOP (leaving the list
unchanged) once the count has reached the cap, and reports -ENOMEM
untouched on allocation failure; unprotect decrements the counter and
removes the task's entry exactly when the count returns to zero; and on
a well-formed bounded list every count stays at most 2 across both
operations, so a task never holds more than two concurrent nested
referral traversals. -/
theorem C10_referral_guard (list : List Nfs.ReferralCount) (t : Nat)
    (hwf : Nfs.WFList list) :
    (Nfs.nfs_find_referral_count list t = none →
      Nfs.nfs_referral_loop_protect list t true = (0, ⟨t, 1⟩ :: list) ∧
      Nfs.taskCount (Nfs.nfs_referral_loop_protect list t true).2 t = 1) ∧
    (∀ p, Nfs.nfs_find_referral_count list t = some p →
      p.referral_count < Nfs.NFS_MAX_NESTED_REFERRALS →
      (Nfs.nfs_referral_loop_protect list t true).1 = 0 ∧
      Nfs.taskCount (Nfs.nfs_referral_loop_protect list t true).2 t
        = p.referral_count + 1) ∧
    (∀ p, Nfs.nfs_find_referral_count list t = some p →
      Nfs.NFS_MAX_NESTED_REFERRALS ≤ p.referral_count →
      Nfs.nfs_referral_loop_protect list t true = (-30, list)) ∧
    (Nfs.nfs_referral_loop_protect list t false = (-12, list)) ∧
    (∀ p, Nfs.nfs_find_referral_count list t = some p →
      Nfs.taskCount (Nfs.nfs_referral_loop_unprotect list t) t
        = p.referral_count - 1 ∧
      (Nfs.nfs_find_referral_count (Nfs.nfs_referral_loop_unprotect list t) t = none
        ↔ p.referral_count - 1 = 0)) ∧
    (∀ allocOk, Nfs.BoundedList list →
      Nfs.BoundedList (Nfs.nfs_referral_loop_protect list t allocOk).2 ∧
      Nfs.BoundedList (Nfs.nfs_referral_loop_unprotect list t)) := by
  refine ⟨?_, ?_, ?_, ?_, ?_, ?_⟩
  · intro hnone
    have hstep : Nfs.nfs_referral_loop_protect list t true = (0, ⟨t, 1⟩ :: list) := by
      simp [Nfs.nfs_referral_loop_protect, hnone]
    refine ⟨hstep, ?_⟩
    rw [hstep]
    simp [Nfs.taskCount, Nfs.nfs_find_referral_count]
  · intro p hp hlt
    have hp2 : list.find? (fun q => q.task == t) = some p := hp
    have htask : (p.task == t) = true := by simpa using List.find?_some hp2
    have hstep : Nfs.nfs_referral_loop_protect list t true
        = (0, list.map (fun q =>
            if q.task == t then { q with referral_count := q.referral_count + 1 }
            else q)) := by
      simp [Nfs.nfs_referral_loop_protect, hp, Nat.not_le.mpr hlt]
    have hsnd : (Nfs.nfs_referral_loop_protect list t true).2
        = list.map (fun q =>
            if q.task == t then { q with referral_count := q.referral_count + 1 }
            else q) := by rw [hstep]
    constructor
    · rw [hstep]
    · unfold Nfs.taskCount
      rw [hsnd, nfs_find_map_update list t
        (fun q => { q with referral_count := q.referral_count + 1 }) (fun q => rfl), hp]
      simp [beq_iff_eq.mp htask]
  · intro p hp hge
    simp [Nfs.nfs_referral_loop_protect, hp, hge]
  · rfl
  · intro p hp
    have hp2 : list.find? (fun q => q.task == t) = some p := hp
    have htask : (p.task == t) = true := by simpa using List.find?_some hp2
    by_cases hz : p.referral_count - 1 = 0
    · have hstep : Nfs.nfs_referral_loop_unprotect list t
          = list.filter (fun q => !(q.task == t)) := by
        simp [Nfs.nfs_referral_loop_unprotect, hp, hz]
      rw [hstep]
      constructor
      · unfold Nfs.taskCount
        rw [nfs_find_filter_out]
        show 0 = p.referral_count - 1
        omega
      · simp [nfs_find_filter_out, hz]
    · have hstep : Nfs.nfs_referral_loop_unprotect list t
          = list.map (fun q =>
              if q.task == t then { q with referral_count := q.referral_count - 1 }
              else q) := by
        simp [Nfs.nfs_referral_loop_unprotect, hp, hz]
      rw [hstep]
      constructor
      · unfold Nfs.taskCount
        rw [nfs_find_map_update list t
          (fun q => { q with referral_count := q.referral_count - 1 }) (fun q => rfl), hp]
        simp [beq_iff_eq.mp htask]
      · rw [nfs_find_map_update list t
          (fun q => { q with referral_count := q.referral_count - 1 }) (fun q => rfl), hp]
        simp [htask, hz]
  · intro allocOk hb
    constructor
    · cases allocOk with
      | false =>
        exact hb
      | true =>
        cases hfind : Nfs.nfs_find_referral_count list t with
        | none =>
          have hstep : Nfs.nfs_referral_loop_protect list t true
              = (0, ⟨t, 1⟩ :: list) := by
            simp [Nfs.nfs_referral_loop_protect, hfind]
          rw [hstep]
          intro q hq
          rcases List.mem_cons.mp hq with h | h
          · subst h
            show 1 ≤ Nfs.NFS_MAX_NESTED_REFERRALS
            decide
          · exact hb q h
        | some p =>
          have hfind2 : list.find? (fun q => q.task == t) = some p := hfind
          have hmem : p ∈ list := List.mem_of_find?_eq_some hfind2
          have htask : (p.task == t) = true := by simpa using List.find?_some hfind2
          by_cases hge : Nfs.NFS_MAX_NESTED_REFERRALS ≤ p.referral_count
          · have hstep : Nfs.nfs_referral_loop_protect list t true = (-30, list) := by
              simp [Nfs.nfs_referral_loop_protect, hfind, hge]
            rw [hstep]
            exact hb
          · have hstep : Nfs.nfs_referral_loop_protect list t true
                = (0, list.map (fun q =>
                    if q.task == t then { q with referral_count := q.referral_count + 1 }
                    else q)) := by
              simp [Nfs.nfs_referral_loop_protect, hfind, hge]
            rw [hstep]
            intro q hq
            rcases List.mem_map.mp hq with ⟨q0, hq0, hq0e⟩
            rw [← hq0e]
            by_cases hq0t : q0.task = t
            · have heq : q0 = p := nfs_wf_unique list hwf q0 hq0 p hmem
                (hq0t.trans (beq_iff_eq.mp htask).symm)
              simp only [hq0t, beq_self_eq_true, if_true]
              subst heq
              simp only [Nfs.NFS_MAX_NESTED_REFERRALS] at hge ⊢
              omega
            · simp only [beq_iff_eq, if_neg hq0t]
              exact hb q0 hq0
    · cases hfind : Nfs.nfs_find_referral_count list t with
      | none =>
        have hstep : Nfs.nfs_referral_loop_unprotect list t = list := by
          simp [Nfs.nfs_referral_loop_unprotect, hfind]
        rw [hstep]
        exact hb
      | some p =>
        by_cases hz : p.referral_count - 1 = 0
        · have hstep : Nfs.nfs_referral_loop_unprotect list t
              = list.filter (fun q => !(q.task == t)) := by
            simp [Nfs.nfs_referral_loop_unprotect, hfind, hz]
          rw [hstep]
          intro q hq
          exact hb q (List.mem_filter.mp hq).1
        · have hstep : Nfs.nfs_referral_loop_unprotect list t
              = list.map (fun q =>
                  if q.task == t then { q with referral_count := q.referral_count - 1 }
                  else q) := by
            simp [Nfs.nfs_referral_loop_unprotect, hfind, hz]
          rw [hstep]
          intro q hq
          rcases List.mem_map.mp hq with ⟨q0, hq0, hq0e⟩
          rw [← hq0e]
          by_cases hq0t : q0.task = t
          · simp only [hq0t, beq_self_eq_true, if_true]
            have := hb q0 hq0
            simp only [Nfs.NFS_MAX_NESTED_REFERRALS] at *
            omega
          · simp only [beq_iff_eq, if_neg hq0t]
            exact hb q0 hq0

/-- Witness for C10: with task 7 already at the cap of 2, protect fails
with -ELOOP and leaves the list unchanged, and unprotect brings the
count back to 1. -/
theorem C10_referral_guard_witness :
    Nfs.WFList [⟨7, 2⟩] ∧
    Nfs.nfs_referral_loop_protect [⟨7, 2⟩] 7 true = (-30, [⟨7, 2⟩]) ∧
    Nfs.taskCount (Nfs.nfs_referral_loop_unprotect [⟨7, 2⟩] 7) 7 = 1 := by
  have hwf : Nfs.WFList [⟨7, 2⟩] := List.pairwise_singleton _ _
  have h := C10_referral_guard [⟨7, 2⟩] 7 hwf
  refine ⟨hwf, h.2.2.1 ⟨7, 2⟩ (by decide) (by decide), ?_⟩
  have h5 := h.2.2.2.2.1 ⟨7, 2⟩ (by decide)
  exact h5.1

/-- C8: the code does not retry the entire walk from the start after a
raced rename: at the failing input (a one-component chain "a" over
devname "srv:", a 100-byte buffer, canonical unset, and one attempt
whose end-of-walk counter reread reports a rename), nfs_path as written
returns just "srv:", because the rename_retry label re-enters with the
dentry cursor already parked at the root and the budget already
debited; the unraced run and the claim's expected result both give
"srv:/a". -/
theorem C8_rename_retry_bug :
    Nfs.nfs_path_code (some "srv:") false 1 ["a"] 100 = .ok "srv:" ∧
    Nfs.nfs_path_code (some "srv:") false 0 ["a"] 100 = .ok "srv:/a" ∧
    Nfs.nfsFullPath ["a"] (some "srv:") false = "srv:/a" ∧
    Nfs.nfs_path_code (some "srv:") false 1 ["a"] 100
      ≠ .ok (Nfs.nfsFullPath ["a"] (some "srv:") false) := by
  refine ⟨rfl, rfl, rfl, ?_⟩
  intro h
  have h2 : (Except.ok "srv:" : Except Int String) = Except.ok "srv:/a" := h
  injection h2 with h3
  exact absurd h3 (by decide)
